import Mathlib

/-!
Verification development for the POD reduced-order model of the 2D lid-driven
cavity problem (`pythonNN/2DLidDriven/LidDriven.py`).

The numeric code is embedded shallowly and polymorphically over a linear
ordered field `α`: grids and matrices are total functions `ℕ → ℕ → α` with
explicit dimension arguments, flattened field vectors are `ℕ → α`, and the
trigonometric / square-root / root-finding primitives supplied by numpy,
torch and scipy are taken as function parameters (the source itself passes
`cos`, `sin`, `cat` as keyword parameters to support the dual numpy/torch
backends).  Instantiating `α := ℝ` with `Real.cos`, `Real.sin`, `Real.sqrt`
recovers the real-number semantics of the program; instantiating `α := ℚ`
keeps every definition executable on concrete data.  The external `fsolve`
root-finder is modelled as an oracle argument, and the per-case diagnostic
`print` of `POD_Gfsolve` is modelled as a returned list of reports.
-/

namespace LidDriven

/-- `NVAR = 3`: the unknown variables per grid point are p, u, v. -/
def NVAR : ℕ := 3

/-- `Newton['eps'] = 1E-6`: residual-norm tolerance of the Galerkin solve. -/
def newtonEps (α : Type) [LinearOrderedField α] : α := 1 / 1000000

/-- The literal constant `3.14159265359` that the source uses in place of π
in `getJac`, `getGrid` and `getABCoef`. -/
def piConst (α : Type) [LinearOrderedField α] : α := 314159265359 / 100000000000

/-- The state assembled by `CustomedEqs.__init__`: grid shape, reduction
order, SVD modes, spectral differentiation matrices (`dx`, `dy` from
`Chby2D.DxCoeff(1)` and `dxp`, `dyp` from `Chby2D.DxCoeffN2()`), the
Chebyshev coordinate grids `xc`, `yc`, the Dirichlet boundary profile `uBC`,
the training parameters and projections with their normalization statistics,
the validation data, and the reduced tensors `Aeqs`, `Abc`, `Beqs`, `Bbc`.
All arrays are total functions; only the indices below the stored dimension
bounds are meaningful. -/
structure Eqs (α : Type) where
  Nx : ℕ
  Ny : ℕ
  M : ℕ
  NSample : ℕ
  NValidation : ℕ
  Modes : ℕ → ℕ → α
  dx : ℕ → ℕ → α
  dy : ℕ → ℕ → α
  dxp : ℕ → ℕ → α
  dyp : ℕ → ℕ → α
  xc : ℕ → ℕ → α
  yc : ℕ → ℕ → α
  uBC : ℕ → ℕ → α
  parameters : ℕ → ℕ → α
  design_space : ℕ → ℕ → α
  ValidationParameters : ℕ → ℕ → α
  ValidationSamples : ℕ → ℕ → α
  projections : ℕ → ℕ → α
  proj_mean : ℕ → α
  proj_std : ℕ → α
  Aeqs : ℕ → ℕ → ℕ → ℕ → α
  Abc : ℕ → ℕ → ℕ → α
  Beqs : ℕ → ℕ → ℕ → α
  Bbc : ℕ → ℕ → α

variable {α : Type} [LinearOrderedField α]

/-- `self.Interior`: 1 on interior collocation points, 0 on the boundary
ring (`Interior[1:-1,1:-1] = 1` on a zero grid). -/
def interiorMask (Nx Ny : ℕ) : ℕ → ℕ → α := fun i j =>
  if 0 < i ∧ i + 1 < Nx ∧ 0 < j ∧ j + 1 < Ny then 1 else 0

/-- Pressure grid of `Mode2Field`: `p[1:-1,1:-1] = reshape(Vec[0::NVAR], InteriorShape)`
on a zero grid (row-major reshape over the `(Nx-2) × (Ny-2)` interior). -/
def mode2Field_p (Nx Ny : ℕ) (Vec : ℕ → α) : ℕ → ℕ → α := fun i j =>
  if 0 < i ∧ i + 1 < Nx ∧ 0 < j ∧ j + 1 < Ny then
    Vec (NVAR * ((i - 1) * (Ny - 2) + (j - 1))) else 0

/-- x-velocity grid of `Mode2Field` (`Vec[1::NVAR]`). -/
def mode2Field_u (Nx Ny : ℕ) (Vec : ℕ → α) : ℕ → ℕ → α := fun i j =>
  if 0 < i ∧ i + 1 < Nx ∧ 0 < j ∧ j + 1 < Ny then
    Vec (NVAR * ((i - 1) * (Ny - 2) + (j - 1)) + 1) else 0

/-- y-velocity grid of `Mode2Field` (`Vec[2::NVAR]`). -/
def mode2Field_v (Nx Ny : ℕ) (Vec : ℕ → α) : ℕ → ℕ → α := fun i j =>
  if 0 < i ∧ i + 1 < Nx ∧ 0 < j ∧ j + 1 < Ny then
    Vec (NVAR * ((i - 1) * (Ny - 2) + (j - 1)) + 2) else 0

/-- `Compute_d_dxc(phi) = dx @ phi` (left multiplication on the first axis). -/
def d_dxc (s : Eqs α) (phi : ℕ → ℕ → α) : ℕ → ℕ → α := fun i j =>
  ∑ k ∈ Finset.range s.Nx, s.dx i k * phi k j

/-- `Compute_d_dyc(phi) = (dy @ phi.T).T` (transposed multiplication on the
second axis). -/
def d_dyc (s : Eqs α) (phi : ℕ → ℕ → α) : ℕ → ℕ → α := fun i j =>
  ∑ k ∈ Finset.range s.Ny, s.dy j k * phi i k

/-- `Compute_dp_dxc(phi) = dxp @ phi` (the pressure-gradient derivative,
taken with the `DxCoeffN2` matrices). -/
def dp_dxc (s : Eqs α) (phi : ℕ → ℕ → α) : ℕ → ℕ → α := fun i j =>
  ∑ k ∈ Finset.range s.Nx, s.dxp i k * phi k j

/-- `Compute_dp_dyc(phi) = (dyp @ phi.T).T`. -/
def dp_dyc (s : Eqs α) (phi : ℕ → ℕ → α) : ℕ → ℕ → α := fun i j =>
  ∑ k ∈ Finset.range s.Ny, s.dyp j k * phi i k

/-- `Compute_d_dxc2`: second x-derivative by composing first derivatives. -/
def d_dxc2 (s : Eqs α) (phi : ℕ → ℕ → α) : ℕ → ℕ → α := d_dxc s (d_dxc s phi)

/-- `Compute_d_dyc2`: second y-derivative by composing first derivatives. -/
def d_dyc2 (s : Eqs α) (phi : ℕ → ℕ → α) : ℕ → ℕ → α := d_dyc s (d_dyc s phi)

/-- `Compute_d_dxcyc`: mixed derivative `d_dyc (d_dxc phi)`. -/
def d_dxcyc (s : Eqs α) (phi : ℕ → ℕ → α) : ℕ → ℕ → α := d_dyc s (d_dxc s phi)

/-- `(...).sum()` over the full `Nx × Ny` grid. -/
def gridSum (Nx Ny : ℕ) (f : ℕ → ℕ → α) : α :=
  ∑ i ∈ Finset.range Nx, ∑ j ∈ Finset.range Ny, f i j

/-- Column `j` of `self.Modes` as a flattened interior field vector. -/
def modeCol (s : Eqs α) (j : ℕ) : ℕ → α := fun d => s.Modes d j

/-- Pressure field of mode `j` (`Mode2Field(self.Modes[:,j])`). -/
def modeP (s : Eqs α) (j : ℕ) : ℕ → ℕ → α := mode2Field_p s.Nx s.Ny (modeCol s j)

/-- x-velocity field of mode `j`. -/
def modeU (s : Eqs α) (j : ℕ) : ℕ → ℕ → α := mode2Field_u s.Nx s.Ny (modeCol s j)

/-- y-velocity field of mode `j`. -/
def modeV (s : Eqs α) (j : ℕ) : ℕ → ℕ → α := mode2Field_v s.Nx s.Ny (modeCol s j)

/-- The `Aeqs` tensor filled by `getA`: slot `t ∈ {0,1,2,3}` holds the
convective inner products `(Interior*(·)).sum()` of the source's lines
163-166; other slots are the `np.zeros` background. -/
def getA_Aeqs (s : Eqs α) : ℕ → ℕ → ℕ → ℕ → α := fun t k i j =>
  if t = 0 then
    gridSum s.Nx s.Ny (fun a b => interiorMask s.Nx s.Ny a b *
      (modeU s i a b * d_dxc s (modeU s j) a b * modeU s k a b
        + modeU s i a b * d_dxc s (modeV s j) a b * modeV s k a b))
  else if t = 1 then
    gridSum s.Nx s.Ny (fun a b => interiorMask s.Nx s.Ny a b *
      (modeU s i a b * d_dyc s (modeU s j) a b * modeU s k a b
        + modeU s i a b * d_dyc s (modeV s j) a b * modeV s k a b))
  else if t = 2 then
    gridSum s.Nx s.Ny (fun a b => interiorMask s.Nx s.Ny a b *
      (modeV s i a b * d_dxc s (modeU s j) a b * modeU s k a b
        + modeV s i a b * d_dxc s (modeV s j) a b * modeV s k a b))
  else if t = 3 then
    gridSum s.Nx s.Ny (fun a b => interiorMask s.Nx s.Ny a b *
      (modeV s i a b * d_dyc s (modeU s j) a b * modeU s k a b
        + modeV s i a b * d_dyc s (modeV s j) a b * modeV s k a b))
  else 0

/-- The `Abc` tensor filled by `getA` (source lines 167-170): the boundary
profile `uBC` replaces mode `j`'s x-velocity in the convective terms. -/
def getA_Abc (s : Eqs α) : ℕ → ℕ → ℕ → α := fun t k i =>
  if t = 0 then
    gridSum s.Nx s.Ny (fun a b => interiorMask s.Nx s.Ny a b *
      (modeU s i a b * d_dxc s s.uBC a b * modeU s k a b))
  else if t = 1 then
    gridSum s.Nx s.Ny (fun a b => interiorMask s.Nx s.Ny a b *
      (modeU s i a b * d_dyc s s.uBC a b * modeU s k a b))
  else if t = 2 then
    gridSum s.Nx s.Ny (fun a b => interiorMask s.Nx s.Ny a b *
      (modeV s i a b * d_dxc s s.uBC a b * modeU s k a b))
  else if t = 3 then
    gridSum s.Nx s.Ny (fun a b => interiorMask s.Nx s.Ny a b *
      (modeV s i a b * d_dyc s s.uBC a b * modeU s k a b))
  else 0

/-- The `Beqs` tensor filled by `getB` (source lines 195-201): pressure
gradients use the `dxp`/`dyp` matrices, diffusion terms are negated second
derivatives. -/
def getB_Beqs (s : Eqs α) : ℕ → ℕ → ℕ → α := fun t i j =>
  if t = 0 then
    gridSum s.Nx s.Ny (fun a b => interiorMask s.Nx s.Ny a b *
      (d_dxc s (modeU s j) a b * modeP s i a b + dp_dxc s (modeP s j) a b * modeU s i a b))
  else if t = 1 then
    gridSum s.Nx s.Ny (fun a b => interiorMask s.Nx s.Ny a b *
      (d_dyc s (modeU s j) a b * modeP s i a b + dp_dyc s (modeP s j) a b * modeU s i a b))
  else if t = 2 then
    gridSum s.Nx s.Ny (fun a b => interiorMask s.Nx s.Ny a b *
      (d_dxc s (modeV s j) a b * modeP s i a b + dp_dxc s (modeP s j) a b * modeV s i a b))
  else if t = 3 then
    gridSum s.Nx s.Ny (fun a b => interiorMask s.Nx s.Ny a b *
      (d_dyc s (modeV s j) a b * modeP s i a b + dp_dyc s (modeP s j) a b * modeV s i a b))
  else if t = 4 then
    -gridSum s.Nx s.Ny (fun a b => interiorMask s.Nx s.Ny a b *
      (d_dxc2 s (modeU s j) a b * modeU s i a b + d_dxc2 s (modeV s j) a b * modeV s i a b))
  else if t = 5 then
    -gridSum s.Nx s.Ny (fun a b => interiorMask s.Nx s.Ny a b *
      (d_dyc2 s (modeU s j) a b * modeU s i a b + d_dyc2 s (modeV s j) a b * modeV s i a b))
  else if t = 6 then
    -gridSum s.Nx s.Ny (fun a b => interiorMask s.Nx s.Ny a b *
      (d_dxcyc s (modeU s j) a b * modeU s i a b + d_dxcyc s (modeV s j) a b * modeV s i a b))
  else 0

/-- The `Bbc` tensor filled by `getB` (source lines 203-209).  Slots 2 and 3
are written as `( self.Interior*( 0*pi ) ).sum()` in the source; the literal
`0 *` factor is kept here. -/
def getB_Bbc (s : Eqs α) : ℕ → ℕ → α := fun t i =>
  if t = 0 then
    gridSum s.Nx s.Ny (fun a b => interiorMask s.Nx s.Ny a b *
      (d_dxc s s.uBC a b * modeP s i a b))
  else if t = 1 then
    gridSum s.Nx s.Ny (fun a b => interiorMask s.Nx s.Ny a b *
      (d_dyc s s.uBC a b * modeP s i a b))
  else if t = 2 then
    gridSum s.Nx s.Ny (fun a b => interiorMask s.Nx s.Ny a b * (0 * modeP s i a b))
  else if t = 3 then
    gridSum s.Nx s.Ny (fun a b => interiorMask s.Nx s.Ny a b * (0 * modeP s i a b))
  else if t = 4 then
    -gridSum s.Nx s.Ny (fun a b => interiorMask s.Nx s.Ny a b *
      (d_dxc2 s s.uBC a b * modeU s i a b))
  else if t = 5 then
    -gridSum s.Nx s.Ny (fun a b => interiorMask s.Nx s.Ny a b *
      (d_dyc2 s s.uBC a b * modeU s i a b))
  else if t = 6 then
    -gridSum s.Nx s.Ny (fun a b => interiorMask s.Nx s.Ny a b *
      (d_dxcyc s s.uBC a b * modeU s i a b))
  else 0

/-- Modelled from the spec: the Chebyshev collocation first-derivative
matrix of §4.1 (SpectralGrid) for a 3-point grid on `[-1, 1]` with nodes
`(1, 0, -1)`; the `Chebyshev` module imported by the source is not under
`src/`. -/
def chebD3 : ℕ → ℕ → ℚ := fun i j =>
  if i = 0 then (if j = 0 then 3/2 else if j = 1 then -2 else if j = 2 then 1/2 else 0)
  else if i = 1 then (if j = 0 then 1/2 else if j = 1 then 0 else if j = 2 then -1/2 else 0)
  else if i = 2 then (if j = 0 then -1/2 else if j = 1 then 2 else if j = 2 then -3/2 else 0)
  else 0

/-- A concrete 3×3-grid state with one retained mode: the single interior
point carries the unit mode `(p, u, v) = (0, 3/5, 4/5)` (the left singular
vector of a one-snapshot matrix proportional to `(0, 3, 4)`), and the lid
boundary profile `uBC` is 1 at the boundary point `(0, 1)`.  Unused fields
are zero. -/
def cexSt : Eqs ℚ where
  Nx := 3
  Ny := 3
  M := 1
  NSample := 1
  NValidation := 1
  Modes := fun d j => if j = 0 then (if d = 1 then 3/5 else if d = 2 then 4/5 else 0) else 0
  dx := chebD3
  dy := chebD3
  dxp := chebD3
  dyp := chebD3
  xc := fun _ _ => 0
  yc := fun _ _ => 0
  uBC := fun i j => if i = 0 ∧ j = 1 then 1 else 0
  parameters := fun _ _ => 0
  design_space := fun _ _ => 0
  ValidationParameters := fun _ _ => 0
  ValidationSamples := fun _ _ => 0
  projections := fun _ _ => 0
  proj_mean := fun _ => 0
  proj_std := fun _ => 1
  Aeqs := fun _ _ _ _ => 0
  Abc := fun _ _ _ => 0
  Beqs := fun _ _ _ => 0
  Bbc := fun _ _ => 0

/-- Claim C2 (counterexample): the claim that `Abc[2,:,:]` is exactly zero
for every snapshot set fails on the code: on the concrete 3×3 state `cexSt`
the slot `Abc[2,0,0] = Σ Interior·(v₀·uBC_xc·u₀)` evaluates to `6/25 ≠ 0`. -/
theorem claim_C2_counterexample : getA_Abc cexSt 2 0 0 ≠ 0 := by
  have h : getA_Abc cexSt 2 0 0 = 6/25 := by
    simp [getA_Abc, cexSt, gridSum, interiorMask, modeU, modeV, modeCol,
      mode2Field_u, mode2Field_v, d_dxc, chebD3, NVAR, Finset.sum_range_succ]
    norm_num
  rw [h]
  norm_num

/-- Claim C2 (amended): for every snapshot set and every reduction order,
the structurally-zero boundary slots `Bbc[2,:]` and `Bbc[3,:]` (written as
`0*pi` in the source) are exactly zero; the slots `Abc[2,:,:]` and
`Abc[3,:,:]` are genuine y-velocity-weighted boundary convection terms and
are not structurally zero (see the counterexample). -/
theorem claim_C2 (s : Eqs α) (i : ℕ) : getB_Bbc s 2 i = 0 ∧ getB_Bbc s 3 i = 0 := by
  constructor <;>
    simp [getB_Bbc, gridSum]

/-- The `Aeqs` array of `getA` with its numpy shape `(4, M, M, M)` made
explicit as nested lists (`np.zeros((4, self.M, self.M, self.M))` filled by
the triple mode loop). -/
def getA_AeqsList (s : Eqs α) : List (List (List (List α))) :=
  (List.range 4).map fun t => (List.range s.M).map fun k =>
    (List.range s.M).map fun i => (List.range s.M).map fun j => getA_Aeqs s t k i j

/-- The `Abc` array of `getA` with its numpy shape `(4, M, M)`. -/
def getA_AbcList (s : Eqs α) : List (List (List α)) :=
  (List.range 4).map fun t => (List.range s.M).map fun k =>
    (List.range s.M).map fun i => getA_Abc s t k i

/-- The `Beqs` array of `getB` with its numpy shape `(7, M, M)`. -/
def getB_BeqsList (s : Eqs α) : List (List (List α)) :=
  (List.range 7).map fun t => (List.range s.M).map fun i =>
    (List.range s.M).map fun j => getB_Beqs s t i j

/-- The `Bbc` array of `getB` with its numpy shape `(7, M)`. -/
def getB_BbcList (s : Eqs α) : List (List α) :=
  (List.range 7).map fun t => (List.range s.M).map fun i => getB_Bbc s t i

/-- Replacing every design-parameter datum of the state: the per-sample
training parameter rows, the design-space box, and the validation parameter
rows. -/
def setDesign (s : Eqs α) (p d v : ℕ → ℕ → α) : Eqs α :=
  { s with parameters := p, design_space := d, ValidationParameters := v }

/-- Claim C9: for every state and reduction order `M`, the reduced tensors
built by `getA`/`getB` have exactly the shapes `(4, M, M, M)`, `(4, M, M)`,
`(7, M, M)` and `(7, M)`, and they are parameter-independent: replacing
every design-parameter value in the state leaves them unchanged. -/
theorem claim_C9 (s : Eqs α) (p d v : ℕ → ℕ → α) :
    (getA_AeqsList s).length = 4
    ∧ (getA_AeqsList s).map List.length = List.replicate 4 s.M
    ∧ (getA_AeqsList s).map (fun l => l.map List.length)
        = List.replicate 4 (List.replicate s.M s.M)
    ∧ (getA_AeqsList s).map (fun l => l.map (fun l2 => l2.map List.length))
        = List.replicate 4 (List.replicate s.M (List.replicate s.M s.M))
    ∧ (getA_AbcList s).length = 4
    ∧ (getA_AbcList s).map List.length = List.replicate 4 s.M
    ∧ (getA_AbcList s).map (fun l => l.map List.length)
        = List.replicate 4 (List.replicate s.M s.M)
    ∧ (getB_BeqsList s).length = 7
    ∧ (getB_BeqsList s).map List.length = List.replicate 7 s.M
    ∧ (getB_BeqsList s).map (fun l => l.map List.length)
        = List.replicate 7 (List.replicate s.M s.M)
    ∧ (getB_BbcList s).length = 7
    ∧ (getB_BbcList s).map List.length = List.replicate 7 s.M
    ∧ getA_AeqsList (setDesign s p d v) = getA_AeqsList s
    ∧ getA_AbcList (setDesign s p d v) = getA_AbcList s
    ∧ getB_BeqsList (setDesign s p d v) = getB_BeqsList s
    ∧ getB_BbcList (setDesign s p d v) = getB_BbcList s := by
  refine ⟨?_, ?_, ?_, ?_, ?_, ?_, ?_, ?_, ?_, ?_, ?_, ?_, rfl, rfl, rfl, rfl⟩ <;>
    simp [getA_AeqsList, getA_AbcList, getB_BeqsList, getB_BbcList,
      List.map_map, Function.comp, List.eq_replicate_iff, List.range_succ]

/-- `Theta = alpha[:,1:2]/180*3.14159265359` of `getJac`/`getGrid` for one
parameter row: the angle is supplied in degrees and scaled by the source's
π constant. -/
def jacTheta (alphaRow : ℕ → α) : α := alphaRow 1 / 180 * piConst α

/-- `getJac` for one parameter row, parameterized (as in the source) by the
trigonometric backend; `xCoef, yCoef = 1/2, 1/2`, and the four components
are `(Jac11, Jac12, Jac21, Jac22)`. -/
def getJac (cosf sinf : α → α) (alphaRow : ℕ → α) : α × α × α × α :=
  (1 / (1/2 : α) * (jacTheta alphaRow * 0 + 1),
   0 * jacTheta alphaRow,
   -cosf (jacTheta alphaRow) / sinf (jacTheta alphaRow) / (1/2 : α),
   1 / (1/2 : α) / sinf (jacTheta alphaRow))

/-- The parameter row `alpha = [[200, 90]]`: Reynolds number 200, angle 90
degrees. -/
def alphaRow20090 : ℕ → ℝ := fun c => if c = 1 then 90 else 200

/-- A parameter row with Reynolds number 200 and angle `θ` degrees. -/
def rowDeg (θ : ℝ) : ℕ → ℝ := fun c => if c = 1 then θ else 200

/-- The half-discrepancy `δ = (3.14159265359 - π)/2` between the source's π
constant and π is at most `3.3e-7` in absolute value. -/
lemma deltaAbs : |(piConst ℝ - Real.pi) / 2| ≤ 33 / 100000000 := by
  have h1 := Real.pi_gt_d6
  have h2 := Real.pi_lt_d6
  rw [abs_le]
  norm_num [piConst] at h1 h2 ⊢
  constructor <;> linarith

/-- At the row `[[200, 90]]` the angle `Theta` is `π/2` shifted by the
constant discrepancy `δ`. -/
lemma jacTheta20090 :
    jacTheta alphaRow20090 = Real.pi / 2 + (piConst ℝ - Real.pi) / 2 := by
  simp [jacTheta, alphaRow20090]
  ring

/-- `sin Theta = cos δ` at the row `[[200, 90]]`. -/
lemma sin_jacTheta20090 :
    Real.sin (jacTheta alphaRow20090) = Real.cos ((piConst ℝ - Real.pi) / 2) := by
  rw [jacTheta20090, Real.sin_add, Real.sin_pi_div_two, Real.cos_pi_div_two]
  ring

/-- `cos Theta = -sin δ` at the row `[[200, 90]]`. -/
lemma cos_jacTheta20090 :
    Real.cos (jacTheta alphaRow20090) = -Real.sin ((piConst ℝ - Real.pi) / 2) := by
  rw [jacTheta20090, Real.cos_add, Real.sin_pi_div_two, Real.cos_pi_div_two]
  ring

/-- Quadratic lower bound for `cos δ` from `|δ| ≤ 3.3e-7`. -/
lemma cos_delta_ge :
    1 - 1089 / 20000000000000000 ≤ Real.cos ((piConst ℝ - Real.pi) / 2) := by
  have hb := deltaAbs
  rw [abs_le] at hb
  have hq := Real.one_sub_sq_div_two_le_cos (x := (piConst ℝ - Real.pi) / 2)
  nlinarith [hb.1, hb.2]

/-- Crude positive lower bound for `cos δ`. -/
lemma cos_delta_pos : (9:ℝ) / 10 ≤ Real.cos ((piConst ℝ - Real.pi) / 2) := by
  have := cos_delta_ge
  linarith

/-- `Jac21` at the row `[[200, 90]]`, rewritten through the shift by `δ`. -/
lemma jac21_20090 :
    (getJac Real.cos Real.sin alphaRow20090).2.2.1
      = 2 * (Real.sin ((piConst ℝ - Real.pi) / 2)
              / Real.cos ((piConst ℝ - Real.pi) / 2)) := by
  show -Real.cos (jacTheta alphaRow20090) / Real.sin (jacTheta alphaRow20090) / (1/2 : ℝ) = _
  rw [sin_jacTheta20090, cos_jacTheta20090]
  ring

/-- `Jac22` at the row `[[200, 90]]`, rewritten through the shift by `δ`. -/
lemma jac22_20090 :
    (getJac Real.cos Real.sin alphaRow20090).2.2.2
      = 2 / Real.cos ((piConst ℝ - Real.pi) / 2) := by
  show 1 / (1/2 : ℝ) / Real.sin (jacTheta alphaRow20090) = _
  rw [sin_jacTheta20090]
  norm_num

/-- Claim C5 (counterexample): in exact (real-number) arithmetic the claim
`Jac22 = 2` at `alpha = [[200, 90]]` is false, because the source's angle
scale uses the constant `3.14159265359` rather than π: `sin Theta` is not
exactly 1, so `Jac22 = 2 / sin Theta ≠ 2` (π being irrational). -/
theorem claim_C5_counterexample :
    (getJac Real.cos Real.sin alphaRow20090).2.2.2 ≠ 2 := by
  rw [jac22_20090]
  intro h
  have hpos : (0:ℝ) < Real.cos ((piConst ℝ - Real.pi) / 2) := by
    have := cos_delta_pos; linarith
  have hone : Real.cos ((piConst ℝ - Real.pi) / 2) = 1 := by
    field_simp at h
    linarith
  obtain ⟨n, hn⟩ := (Real.cos_eq_one_iff _).mp hone
  have hb := deltaAbs
  rw [abs_le] at hb
  have hpi := Real.pi_gt_three
  have hn0 : n = 0 := by
    rcases lt_trichotomy n 0 with hlt | heq | hgt
    · have h1' : n ≤ -1 := by omega
      have h1 : (n:ℝ) ≤ -1 := by exact_mod_cast h1'
      nlinarith [hb.1, hn]
    · exact heq
    · have h1 : (1:ℝ) ≤ (n:ℝ) := by exact_mod_cast hgt
      nlinarith [hb.2, hn]
  rw [hn0] at hn
  simp at hn
  have hrat : Real.pi = ((314159265359 / 100000000000 : ℚ) : ℝ) := by
    have : Real.pi = piConst ℝ := by
      have := hn.symm
      unfold piConst at *
      linarith
    rw [this]
    norm_num [piConst]
  exact irrational_pi.ne_rat _ hrat

/-- Claim C5 (amended): at `alpha = [[200, 90]]`, `Jac11 = 2` and
`Jac12 = 0` exactly, while `Jac21` is within `1e-6` of 0 and `Jac22` within
`1e-6` of 2 (exact equality `Jac22 = 2` fails in exact arithmetic, see the
counterexample, because the source's π constant differs from π). -/
theorem claim_C5 :
    (getJac Real.cos Real.sin alphaRow20090).1 = 2
    ∧ (getJac Real.cos Real.sin alphaRow20090).2.1 = 0
    ∧ |(getJac Real.cos Real.sin alphaRow20090).2.2.1| ≤ 1 / 1000000
    ∧ |(getJac Real.cos Real.sin alphaRow20090).2.2.2 - 2| ≤ 1 / 1000000 := by
  refine ⟨by norm_num [getJac], by norm_num [getJac], ?_, ?_⟩
  · rw [jac21_20090]
    have hpos : (0:ℝ) < Real.cos ((piConst ℝ - Real.pi) / 2) := by
      have := cos_delta_pos; linarith
    have hsin : |Real.sin ((piConst ℝ - Real.pi) / 2)| ≤ 33 / 100000000 :=
      le_trans Real.abs_sin_le_abs deltaAbs
    rw [abs_mul, abs_div, abs_of_pos hpos]
    have h2 : |(2:ℝ)| = 2 := by norm_num
    rw [h2, ← mul_div_assoc, div_le_iff hpos]
    nlinarith [cos_delta_pos, hsin, abs_nonneg (Real.sin ((piConst ℝ - Real.pi) / 2))]
  · rw [jac22_20090]
    have hpos : (0:ℝ) < Real.cos ((piConst ℝ - Real.pi) / 2) := by
      have := cos_delta_pos; linarith
    have hle : Real.cos ((piConst ℝ - Real.pi) / 2) ≤ 1 := Real.cos_le_one _
    have hnn : 0 ≤ 2 / Real.cos ((piConst ℝ - Real.pi) / 2) - 2 := by
      rw [sub_nonneg, le_div_iff hpos]
      linarith
    rw [abs_of_nonneg hnn, sub_le_iff_le_add, div_le_iff hpos]
    nlinarith [cos_delta_ge]

/-- The angle of `getJac` for a pure-angle row, in terms of the degree
input. -/
lemma jacTheta_rowDeg (θ : ℝ) : jacTheta (rowDeg θ) = θ / 180 * piConst ℝ := by
  simp [jacTheta, rowDeg]

/-- Claim C6 (counterexample): at the angle 180 degrees the divisor
`sin(Theta)` of `getJac` is NOT zero: `Theta = 3.14159265359 ≠ π` exactly,
since π is irrational, so the claimed division by zero at the upper
endpoint does not occur in exact arithmetic. -/
theorem claim_C6_counterexample : Real.sin (jacTheta (rowDeg 180)) ≠ 0 := by
  intro h
  obtain ⟨n, hn⟩ := Real.sin_eq_zero_iff.mp h
  rw [jacTheta_rowDeg] at hn
  norm_num [piConst] at hn
  have hgt := Real.pi_gt_d6
  have hlt := Real.pi_lt_d6
  have hn1 : n = 1 := by
    by_contra hne
    rcases lt_or_gt_of_ne hne with hlo | hhi
    · have h0 : n ≤ 0 := by omega
      have h0r : (n:ℝ) ≤ 0 := by exact_mod_cast h0
      nlinarith [Real.pi_gt_three]
    · have h2 : 2 ≤ n := by omega
      have h2r : (2:ℝ) ≤ (n:ℝ) := by exact_mod_cast h2
      nlinarith [Real.pi_gt_three]
  rw [hn1] at hn
  have hrat : Real.pi = ((314159265359 / 100000000000 : ℚ) : ℝ) := by
    push_cast
    linarith
  exact irrational_pi.ne_rat _ hrat

/-- Claim C6 (amended): `getJac` divides by `sin(Theta)` with no guard and
is a total function raising no checked error.  At angle 0 degrees the
divisor is exactly zero and the embedding's total division returns the junk
value 0 for `Jac21` and `Jac22` (the numpy original propagates non-finite
values instead of raising).  At angle 180 degrees the divisor is NOT zero in
exact arithmetic (see the counterexample), because the source's π constant
differs from π.  For every angle in `(0, 179]` degrees the divisor is
nonzero, so the division-by-zero branch is unreachable there. -/
theorem claim_C6 :
    jacTheta (rowDeg 0) = 0
    ∧ Real.sin (jacTheta (rowDeg 0)) = 0
    ∧ (getJac Real.cos Real.sin (rowDeg 0)).2.2.1 = 0
    ∧ (getJac Real.cos Real.sin (rowDeg 0)).2.2.2 = 0
    ∧ (∀ θ : ℝ, 0 < θ → θ ≤ 179 → Real.sin (jacTheta (rowDeg θ)) ≠ 0) := by
  have hz : jacTheta (rowDeg 0) = 0 := by
    rw [jacTheta_rowDeg]
    norm_num
  refine ⟨hz, by rw [hz]; exact Real.sin_zero, ?_, ?_, ?_⟩
  · show -Real.cos (jacTheta (rowDeg 0)) / Real.sin (jacTheta (rowDeg 0)) / (1/2 : ℝ) = 0
    rw [hz, Real.sin_zero, div_zero, zero_div]
  · show 1 / (1/2 : ℝ) / Real.sin (jacTheta (rowDeg 0)) = 0
    rw [hz, Real.sin_zero, div_zero]
  · intro θ h0 h179 h
    obtain ⟨n, hn⟩ := Real.sin_eq_zero_iff.mp h
    rw [jacTheta_rowDeg] at hn
    norm_num [piConst] at hn
    have hgt := Real.pi_gt_d6
    have hpos : (0:ℝ) < θ * (314159265359 / 100000000000) / 180 := by positivity
    have hub : θ * (314159265359 / 100000000000) / 180 < Real.pi := by
      nlinarith
    have hn0 : 0 < n := by
      by_contra hle
      push_neg at hle
      have hler : (n:ℝ) ≤ 0 := by exact_mod_cast hle
      nlinarith [Real.pi_gt_three]
    have hn1 : n < 1 := by
      by_contra hge
      push_neg at hge
      have hger : (1:ℝ) ≤ (n:ℝ) := by exact_mod_cast hge
      nlinarith [Real.pi_gt_three]
    omega

/-- Claim C6 (witness): the no-division-by-zero part of the amended claim
instantiated at the interior angle 90 degrees. -/
theorem claim_C6_witness :
    (0:ℝ) < 90 ∧ (90:ℝ) ≤ 179 ∧ Real.sin (jacTheta (rowDeg 90)) ≠ 0 :=
  ⟨by norm_num, by norm_num, claim_C6.2.2.2.2 90 (by norm_num) (by norm_num)⟩

/-- `getABCoef` for one parameter row: `Acoef` is the 4-vector of Jacobian
entries and `BCoef` the 7-vector with the viscosity-weighted diffusion
coefficients appended (`v = 1/Re`). -/
def getABCoef (cosf sinf : α → α) (alphaRow : ℕ → α) : (ℕ → α) × (ℕ → α) :=
  let v := 1 / alphaRow 0
  let J := getJac cosf sinf alphaRow
  (fun t => [J.1, J.2.1, J.2.2.1, J.2.2.2].getD t 0,
   fun t => [J.1, J.2.1, J.2.2.1, J.2.2.2,
             v * (J.1 ^ 2 + J.2.2.1 ^ 2), v * (J.2.1 ^ 2 + J.2.2.2 ^ 2),
             2 * v * (J.1 * J.2.1 + J.2.2.1 * J.2.2.2)].getD t 0)

/-- `Ai = (AiCoeff[:,None,None,None] * Aeqs).sum(axis=0)` inside
`POD_Gfsolve`: a parameter-specific `(M, M, M)` stack of quadratic forms. -/
def assembleA (s : Eqs α) (Ac : ℕ → α) : ℕ → ℕ → ℕ → α := fun k a b =>
  ∑ t ∈ Finset.range 4, Ac t * s.Aeqs t k a b

/-- `Bi = (AiCoeff*Abc).sum(0) + (BiCoeff*Beqs).sum(0)` inside
`POD_Gfsolve`. -/
def assembleB (s : Eqs α) (Ac Bc : ℕ → α) : ℕ → ℕ → α := fun k b =>
  (∑ t ∈ Finset.range 4, Ac t * s.Abc t k b)
    + ∑ t ∈ Finset.range 7, Bc t * s.Beqs t k b

/-- `sourcei = -(BiCoeff[:,None] * Bbc).sum(axis=0)` inside `POD_Gfsolve`. -/
def assembleSource (s : Eqs α) (Bc : ℕ → α) : ℕ → α := fun k =>
  -∑ t ∈ Finset.range 7, Bc t * s.Bbc t k

/-- De-normalization with the stored per-mode statistics:
`lamda = x * proj_std + proj_mean`. -/
def denormalizeLam (s : Eqs α) (x : ℕ → α) : ℕ → α := fun k =>
  x k * s.proj_std k + s.proj_mean k

/-- Normalization with the stored per-mode statistics:
`lamda0 = (lamda0 - proj_mean) / proj_std`. -/
def normalizeLam (s : Eqs α) (g : ℕ → α) : ℕ → α := fun k =>
  (g k - s.proj_mean k) / s.proj_std k

/-- The inner `eqs(x, A, B, source)` of `POD_Gfsolve`: de-normalize `x`,
then evaluate `err_k = (λᵀ A[k] λ) + (B λ)_k - source_k` (the numpy
`compute_eAe` contraction). -/
def eqsResidual (s : Eqs α) (A : ℕ → ℕ → ℕ → α) (B : ℕ → ℕ → α)
    (source : ℕ → α) (x : ℕ → α) : ℕ → α := fun k =>
  (∑ b ∈ Finset.range s.M,
      (∑ a ∈ Finset.range s.M, denormalizeLam s x a * A k a b) * denormalizeLam s x b)
    + (∑ b ∈ Finset.range s.M, B k b * denormalizeLam s x b)
    - source k

/-- The residual function handed to `fsolve` for query row `i`. -/
def caseEqs (s : Eqs α) (cosf sinf : α → α) (alpha : ℕ → ℕ → α) (i : ℕ) :
    (ℕ → α) → ℕ → α := fun x =>
  let AB := getABCoef cosf sinf (fun c => alpha i c)
  eqsResidual s (assembleA s AB.1) (assembleB s AB.1 AB.2)
    (assembleSource s AB.2) x

/-- `dis[j]`: the Euclidean norm of the parameter difference scaled
coordinate-wise by the design-space box extents
(`(alphai - parameters) / (design_space[1] - design_space[0])`,
`np.linalg.norm(axis=1)`), with the square root supplied as the numeric
backend's `sqrt`. -/
def nnDis (s : Eqs α) (sqrtf : α → α) (alphaRow : ℕ → α) (j : ℕ) : α :=
  sqrtf (∑ c ∈ Finset.range 2,
    ((alphaRow c - s.parameters j c) / (s.design_space 1 c - s.design_space 0 c)) ^ 2)

/-- `ind = np.where(dis == dis.min())[0][0]`: the first training index
attaining the minimal scaled distance. -/
def nearestInd [DecidableEq α] (s : Eqs α) (sqrtf : α → α) (alphaRow : ℕ → α) : ℕ :=
  match ((List.range s.NSample).map (nnDis s sqrtf alphaRow)).min? with
  | some m =>
      (((List.range s.NSample).find? fun j =>
          decide (nnDis s sqrtf alphaRow j = m))).getD 0
  | none => 0

/-- The raw (not yet normalized) initial guess of `POD_Gfsolve` for case
`i`: the supplied `lamda_init` row when present, otherwise the projection
coefficients `projections[0:M, ind]` of the nearest training sample. -/
def caseGuessRaw [DecidableEq α] (s : Eqs α) (sqrtf : α → α) (alpha : ℕ → ℕ → α)
    (lamda_init : Option (ℕ → ℕ → α)) (i : ℕ) : ℕ → α :=
  match lamda_init with
  | some L => fun k => L i k
  | none => fun k => s.projections k (nearestInd s sqrtf (fun c => alpha i c))

/-- `lamdasol = fsolve(eqs, lamda0)` for case `i`, with the external scipy
root-finder modelled as the oracle `fsolve`. -/
def caseSol [DecidableEq α] (s : Eqs α)
    (fsolve : ((ℕ → α) → ℕ → α) → (ℕ → α) → ℕ → α) (cosf sinf sqrtf : α → α)
    (alpha : ℕ → ℕ → α) (lamda_init : Option (ℕ → ℕ → α)) (i : ℕ) : ℕ → α :=
  fsolve (caseEqs s cosf sinf alpha i)
    (normalizeLam s (caseGuessRaw s sqrtf alpha lamda_init i))

/-- `err = np.linalg.norm(eqs(lamdasol, Ai, Bi, sourcei))` for case `i`. -/
def caseErr [DecidableEq α] (s : Eqs α)
    (fsolve : ((ℕ → α) → ℕ → α) → (ℕ → α) → ℕ → α) (cosf sinf sqrtf : α → α)
    (alpha : ℕ → ℕ → α) (lamda_init : Option (ℕ → ℕ → α)) (i : ℕ) : α :=
  sqrtf (∑ k ∈ Finset.range s.M,
    caseEqs s cosf sinf alpha i (caseSol s fsolve cosf sinf sqrtf alpha lamda_init i) k ^ 2)

/-- `POD_Gfsolve(alpha, lamda_init)`: per query row, assemble the reduced
system, root-find from the (normalized) initial guess, check the residual
norm against `Newton['eps']`, and store the de-normalized solution in the
zero-initialized `(n, M)` output.  The per-case diagnostic `print` for
residuals above the tolerance is modelled as the returned list of reports
`(i, alphai[0,0], alphai[0,1], err)`. -/
def POD_Gfsolve [DecidableEq α] [DecidableRel ((· < ·) : α → α → Prop)]
    (s : Eqs α) (fsolve : ((ℕ → α) → ℕ → α) → (ℕ → α) → ℕ → α)
    (cosf sinf sqrtf : α → α) (alpha : ℕ → ℕ → α) (n : ℕ)
    (lamda_init : Option (ℕ → ℕ → α)) :
    (ℕ → ℕ → α) × List (ℕ × α × α × α) :=
  (fun i k =>
    if i < n ∧ k < s.M then
      denormalizeLam s (caseSol s fsolve cosf sinf sqrtf alpha lamda_init i) k
    else 0,
   (List.range n).filterMap fun i =>
     if newtonEps α < caseErr s fsolve cosf sinf sqrtf alpha lamda_init i then
       some (i, alpha i 0, alpha i 1, caseErr s fsolve cosf sinf sqrtf alpha lamda_init i)
     else none)

/-- The batched `A` tensor of `loss_Eqs`:
`(ACoeff[:,:,None,None,None] * Aeqs[None,...]).sum(axis=1)`. -/
def loss_EqsA (s : Eqs α) (ACoef : ℕ → ℕ → α) : ℕ → ℕ → ℕ → ℕ → α := fun r k a b =>
  ∑ t ∈ Finset.range 4, ACoef r t * s.Aeqs t k a b

/-- The batched `B` tensor of `loss_Eqs`. -/
def loss_EqsB (s : Eqs α) (ACoef BCoef : ℕ → ℕ → α) : ℕ → ℕ → ℕ → α := fun r k b =>
  (∑ t ∈ Finset.range 4, ACoef r t * s.Abc t k b)
    + ∑ t ∈ Finset.range 7, BCoef r t * s.Beqs t k b

/-- The batched source term of `loss_Eqs`. -/
def loss_EqsSource (s : Eqs α) (BCoef : ℕ → ℕ → α) : ℕ → ℕ → α := fun r k =>
  -∑ t ∈ Finset.range 7, BCoef r t * s.Bbc t k

/-- The residual `fx` computed inside `CustomedNet.loss_Eqs` with the
differentiable backend: coefficients from `getABCoef` (with the backend's
`cos`/`sin`), then the batched `torch.matmul` contraction
`fx = λᵀ A λ + B λ - source` row by row. -/
def loss_EqsFx (s : Eqs α) (cosf sinf : α → α) (x lamda : ℕ → ℕ → α) :
    ℕ → ℕ → α := fun r k =>
  let ACoef := fun r' t => (getABCoef cosf sinf (fun c => x r' c)).1 t
  let BCoef := fun r' t => (getABCoef cosf sinf (fun c => x r' c)).2 t
  (∑ b ∈ Finset.range s.M,
      (∑ a ∈ Finset.range s.M, lamda r a * loss_EqsA s ACoef r k a b) * lamda r b)
    + (∑ b ∈ Finset.range s.M, loss_EqsB s ACoef BCoef r k b * lamda r b)
    - loss_EqsSource s BCoef r k

/-- Claim C3: the residual evaluation is dual-mode with the identical
formula: for every state, every design-parameter batch, every normalized
coefficient batch `xn` and every row `r` and component `k`, the plain-array
residual assembled inside `POD_Gfsolve` (which internally de-normalizes its
argument) coincides with the residual `fx` computed by the
differentiable-backend `loss_Eqs` at the corresponding de-normalized
coefficients. -/
theorem claim_C3 (s : Eqs α) (cosf sinf : α → α) (alpha xn : ℕ → ℕ → α)
    (r k : ℕ) :
    caseEqs s cosf sinf alpha r (fun a => xn r a) k
      = loss_EqsFx s cosf sinf alpha
          (fun r' a => denormalizeLam s (fun b => xn r' b) a) r k := by
  rfl

/-- Claim C1: each solved case is stored de-normalized in the returned
array unconditionally (not discarded, not replaced, not retried: `fsolve`
is applied exactly once per case), and a diagnostic report carrying the
case index, the two parameter values and the achieved error is emitted if
and only if the residual norm exceeds `Newton['eps'] = 1e-6`, so the soft
failure is detectable per case. -/
theorem claim_C1 [DecidableEq α] [DecidableRel ((· < ·) : α → α → Prop)]
    (s : Eqs α) (fsolve : ((ℕ → α) → ℕ → α) → (ℕ → α) → ℕ → α)
    (cosf sinf sqrtf : α → α) (alpha : ℕ → ℕ → α) (n : ℕ)
    (lamda_init : Option (ℕ → ℕ → α)) (i : ℕ) (hi : i < n) :
    (∀ k, k < s.M →
      (POD_Gfsolve s fsolve cosf sinf sqrtf alpha n lamda_init).1 i k
        = denormalizeLam s (caseSol s fsolve cosf sinf sqrtf alpha lamda_init i) k)
    ∧ ((i, alpha i 0, alpha i 1,
          caseErr s fsolve cosf sinf sqrtf alpha lamda_init i)
          ∈ (POD_Gfsolve s fsolve cosf sinf sqrtf alpha n lamda_init).2
        ↔ newtonEps α < caseErr s fsolve cosf sinf sqrtf alpha lamda_init i) := by
  refine ⟨fun k hk => by simp [POD_Gfsolve, hi, hk], ?_, ?_⟩
  · intro hmem
    rw [POD_Gfsolve] at hmem
    simp only [List.mem_filterMap, List.mem_range] at hmem
    obtain ⟨i', hi', hsome⟩ := hmem
    split_ifs at hsome with hc
    simp only [Option.some.injEq, Prod.mk.injEq] at hsome
    obtain ⟨h1, -⟩ := hsome
    rw [← h1]
    exact hc
  · intro hgt
    rw [POD_Gfsolve]
    simp only [List.mem_filterMap, List.mem_range]
    exact ⟨i, hi, by rw [if_pos hgt]⟩

/-- First-minimizer specification of the nearest-neighbor lookup: the index
returned by `nearestInd` is in range and attains the minimal scaled
distance. -/
lemma nearestInd_spec [DecidableEq α] (s : Eqs α) (sqrtf : α → α)
    (alphaRow : ℕ → α) (hN : 0 < s.NSample) :
    nearestInd s sqrtf alphaRow < s.NSample
    ∧ ∀ j, j < s.NSample →
        nnDis s sqrtf alphaRow (nearestInd s sqrtf alphaRow)
          ≤ nnDis s sqrtf alphaRow j := by
  set L := (List.range s.NSample).map (nnDis s sqrtf alphaRow) with hL
  have hLne : L ≠ [] := by
    simp [hL]
    omega
  cases hmin : L.min? with
  | none => exact absurd (List.min?_eq_none_iff.mp hmin) hLne
  | some m =>
    have hmem : m ∈ L := List.min?_mem (fun a b => min_choice a b) hmin
    have hle : ∀ b ∈ L, m ≤ b :=
      (List.le_min?_iff (fun a b c => le_min_iff) hmin).mp (le_refl m)
    obtain ⟨j0, hj0mem, hj0eq⟩ := List.mem_map.mp hmem
    have hfind : (((List.range s.NSample).find? fun j =>
        decide (nnDis s sqrtf alphaRow j = m))).isSome :=
      List.find?_isSome.mpr ⟨j0, hj0mem, by simp [hj0eq]⟩
    obtain ⟨j1, hj1⟩ := Option.isSome_iff_exists.mp hfind
    have hj1mem : j1 < s.NSample :=
      List.mem_range.mp (List.mem_of_find?_eq_some hj1)
    have hj1eq : nnDis s sqrtf alphaRow j1 = m := by
      have := List.find?_some hj1
      simpa using this
    have hind : nearestInd s sqrtf alphaRow = j1 := by
      unfold nearestInd
      rw [← hL, hmin]
      change (((List.range s.NSample).find? fun j =>
          decide (nnDis s sqrtf alphaRow j = m))).getD 0 = j1
      rw [hj1]
      rfl
    refine ⟨hind ▸ hj1mem, fun j hj => ?_⟩
    rw [hind, hj1eq]
    exact hle _ (List.mem_map.mpr ⟨j, List.mem_range.mpr hj, rfl⟩)

/-- Claim C4: with no external initial guess, `POD_Gfsolve` picks as guess
the projection coefficients of the training sample whose parameter row
minimizes the box-extent-scaled Euclidean distance; the guess is normalized
by the stored mean/std before root-finding and the returned stored solution
is de-normalized with the same statistics. -/
theorem claim_C4 [DecidableEq α] [DecidableRel ((· < ·) : α → α → Prop)]
    (s : Eqs α) (fsolve : ((ℕ → α) → ℕ → α) → (ℕ → α) → ℕ → α)
    (cosf sinf sqrtf : α → α) (alpha : ℕ → ℕ → α) (n i : ℕ)
    (hi : i < n) (hN : 0 < s.NSample) :
    nearestInd s sqrtf (fun c => alpha i c) < s.NSample
    ∧ (∀ j, j < s.NSample →
        nnDis s sqrtf (fun c => alpha i c) (nearestInd s sqrtf (fun c => alpha i c))
          ≤ nnDis s sqrtf (fun c => alpha i c) j)
    ∧ caseGuessRaw s sqrtf alpha none i
        = (fun k => s.projections k (nearestInd s sqrtf (fun c => alpha i c)))
    ∧ (∀ k, k < s.M →
        (POD_Gfsolve s fsolve cosf sinf sqrtf alpha n none).1 i k
          = fsolve (caseEqs s cosf sinf alpha i)
              (normalizeLam s
                (fun a => s.projections a (nearestInd s sqrtf (fun c => alpha i c)))) k
              * s.proj_std k + s.proj_mean k) := by
  obtain ⟨h1, h2⟩ := nearestInd_spec s sqrtf (fun c => alpha i c) hN
  refine ⟨h1, h2, rfl, fun k hk => ?_⟩
  simp [POD_Gfsolve, hi, hk, denormalizeLam, caseSol, caseGuessRaw]

/-- The all-trivial concrete state on a 1×1 grid used to witness the solver
claims. -/
def trivSt : Eqs ℚ where
  Nx := 1
  Ny := 1
  M := 1
  NSample := 1
  NValidation := 1
  Modes := fun _ _ => 0
  dx := fun _ _ => 0
  dy := fun _ _ => 0
  dxp := fun _ _ => 0
  dyp := fun _ _ => 0
  xc := fun _ _ => 0
  yc := fun _ _ => 0
  uBC := fun _ _ => 0
  parameters := fun _ _ => 0
  design_space := fun _ _ => 0
  ValidationParameters := fun _ _ => 0
  ValidationSamples := fun _ _ => 0
  projections := fun _ _ => 0
  proj_mean := fun _ => 0
  proj_std := fun _ => 1
  Aeqs := fun _ _ _ _ => 0
  Abc := fun _ _ _ => 0
  Beqs := fun _ _ _ => 0
  Bbc := fun _ _ => 0

/-- The identity oracle standing in for `fsolve` in the witnesses: it
returns the initial guess unchanged. -/
def idSolve : ((ℕ → ℚ) → ℕ → ℚ) → (ℕ → ℚ) → ℕ → ℚ := fun _ g => g

/-- Claim C1 (witness): the soft-failure bookkeeping instantiated on the
trivial concrete state with one query row. -/
theorem claim_C1_witness :
    0 < 1
    ∧ ((∀ k, k < trivSt.M →
        (POD_Gfsolve trivSt idSolve id id id (fun _ _ => 0) 1 none).1 0 k
          = denormalizeLam trivSt (caseSol trivSt idSolve id id id (fun _ _ => 0) none 0) k)
      ∧ (((0:ℕ), (0:ℚ), (0:ℚ), caseErr trivSt idSolve id id id (fun _ _ => 0) none 0)
            ∈ (POD_Gfsolve trivSt idSolve id id id (fun _ _ => 0) 1 none).2
          ↔ newtonEps ℚ < caseErr trivSt idSolve id id id (fun _ _ => 0) none 0)) :=
  ⟨Nat.one_pos, claim_C1 trivSt idSolve id id id (fun _ _ => 0) 1 none 0 Nat.one_pos⟩

/-- Claim C4 (witness): the nearest-neighbor initialization instantiated on
the trivial concrete state with one query row and one training sample. -/
theorem claim_C4_witness :
    0 < 1 ∧ 0 < trivSt.NSample
    ∧ (nearestInd trivSt id (fun c => (fun _ _ => (0:ℚ)) 0 c) < trivSt.NSample
      ∧ (∀ j, j < trivSt.NSample →
          nnDis trivSt id (fun c => (fun _ _ => (0:ℚ)) 0 c)
              (nearestInd trivSt id (fun c => (fun _ _ => (0:ℚ)) 0 c))
            ≤ nnDis trivSt id (fun c => (fun _ _ => (0:ℚ)) 0 c) j)
      ∧ caseGuessRaw trivSt id (fun _ _ => (0:ℚ)) none 0
          = (fun k => trivSt.projections k
              (nearestInd trivSt id (fun c => (fun _ _ => (0:ℚ)) 0 c)))
      ∧ (∀ k, k < trivSt.M →
          (POD_Gfsolve trivSt idSolve id id id (fun _ _ => (0:ℚ)) 1 none).1 0 k
            = idSolve (caseEqs trivSt id id (fun _ _ => (0:ℚ)) 0)
                (normalizeLam trivSt
                  (fun a => trivSt.projections a
                    (nearestInd trivSt id (fun c => (fun _ _ => (0:ℚ)) 0 c)))) k
                * trivSt.proj_std k + trivSt.proj_mean k)) :=
  ⟨Nat.one_pos, Nat.one_pos,
    claim_C4 trivSt idSolve id id id (fun _ _ => 0) 1 0 Nat.one_pos Nat.one_pos⟩

/-- The interior degree-of-freedom count `NVAR * (Nx-2) * (Ny-2)` of the
flattened interior snapshots. -/
def interiorDOF (s : Eqs α) : ℕ := NVAR * ((s.Nx - 2) * (s.Ny - 2))

/-- The message of the exception raised by `GetError` on a count
mismatch. -/
def getErrorMsg : String :=
  "The number of lamda should be equal to validation parameters"

/-- `GetError(lamda)`: raises (modelled as `Except.error`) when the
validation parameter count differs from the row count of the supplied
coefficient batch, otherwise returns the per-variable mean relative L2
errors and the total mean relative L2 error.  `nlam` is the intrinsic numpy
row count `lamda.shape[0]` of the batch, passed explicitly since the
embedding's arrays are total functions. -/
def GetError (s : Eqs α) (sqrtf : α → α) (nlam : ℕ) (lamda : ℕ → ℕ → α) :
    Except String ((ℕ → α) × α) :=
  if s.NValidation ≠ nlam then Except.error getErrorMsg
  else
    let phi_pred := fun r d => ∑ m ∈ Finset.range s.M, lamda r m * s.Modes d m
    let phi_Num := fun r d => s.ValidationSamples d r
    let Error := fun r nvar =>
      sqrtf (∑ d ∈ (Finset.range (interiorDOF s)).filter (fun d => d % NVAR = nvar),
          (phi_Num r d - phi_pred r d) ^ 2)
        / sqrtf (∑ d ∈ (Finset.range (interiorDOF s)).filter (fun d => d % NVAR = nvar),
          phi_Num r d ^ 2)
    let Errorpuv := fun nvar =>
      (∑ r ∈ Finset.range s.NValidation, Error r nvar) / (s.NValidation : α)
    let Errortotal :=
      (∑ r ∈ Finset.range s.NValidation,
        sqrtf (∑ d ∈ Finset.range (interiorDOF s), (phi_Num r d - phi_pred r d) ^ 2)
          / sqrtf (∑ d ∈ Finset.range (interiorDOF s), phi_Num r d ^ 2))
        / (s.NValidation : α)
    Except.ok (Errorpuv, Errortotal)

/-- Claim C8: `GetError` raises if and only if the validation parameter
count differs from the supplied coefficient batch's row count; the check is
performed before any error metric is computed (the error branch returns
immediately with no metric), and the embedding is pure state-passing, so no
stored state is mutated. -/
theorem claim_C8 (s : Eqs α) (sqrtf : α → α) (nlam : ℕ) (lamda : ℕ → ℕ → α) :
    (GetError s sqrtf nlam lamda = Except.error getErrorMsg)
      ↔ s.NValidation ≠ nlam := by
  unfold GetError
  split_ifs with h
  · simp [h]
  · simp [h]

/-- `phi_pred[icase, :] = (lamda @ Modes.T)[icase, :]` in `GetPredFields`. -/
def predPhi (s : Eqs α) (lamda : ℕ → ℕ → α) (icase : ℕ) : ℕ → α := fun d =>
  ∑ m ∈ Finset.range s.M, lamda icase m * s.Modes d m

/-- The reconstructed pressure grid `pi` of `GetPredFields`. -/
def pred_p (s : Eqs α) (lamda : ℕ → ℕ → α) (icase : ℕ) : ℕ → ℕ → α :=
  mode2Field_p s.Nx s.Ny (predPhi s lamda icase)

/-- The reconstructed y-velocity grid `vi` of `GetPredFields`. -/
def pred_v (s : Eqs α) (lamda : ℕ → ℕ → α) (icase : ℕ) : ℕ → ℕ → α :=
  mode2Field_v s.Nx s.Ny (predPhi s lamda icase)

/-- The reconstructed x-velocity grid `ui = ui + self.uBC` of
`GetPredFields`: the fixed boundary profile is re-added. -/
def pred_u (s : Eqs α) (lamda : ℕ → ℕ → α) (icase : ℕ) : ℕ → ℕ → α := fun i j =>
  mode2Field_u s.Nx s.Ny (predPhi s lamda icase) i j + s.uBC i j

/-- The Jacobian entries of case `icase` (`J11[icase]`, ..., from
`getJac(alpha)`). -/
def caseJac (cosf sinf : α → α) (alpha : ℕ → ℕ → α) (icase : ℕ) : α × α × α × α :=
  getJac cosf sinf (fun c => alpha icase c)

/-- The vorticity `omegai = ui_xc*J21 + ui_yc*J22 - vi_xc*J11 - vi_yc*J12`. -/
def predOmega (s : Eqs α) (cosf sinf : α → α) (alpha lamda : ℕ → ℕ → α)
    (icase : ℕ) : ℕ → ℕ → α := fun i j =>
  d_dxc s (pred_u s lamda icase) i j * (caseJac cosf sinf alpha icase).2.2.1
    + d_dyc s (pred_u s lamda icase) i j * (caseJac cosf sinf alpha icase).2.2.2
    - d_dxc s (pred_v s lamda icase) i j * (caseJac cosf sinf alpha icase).1
    - d_dyc s (pred_v s lamda icase) i j * (caseJac cosf sinf alpha icase).2.1

/-- `xp = xc*xCoef + yc*yCoef*cos(Theta)` of `getGrid`. -/
def getGrid_xp (s : Eqs α) (cosf sinf : α → α) (alphaRow : ℕ → α) : ℕ → ℕ → α :=
  fun i j => s.xc i j * (1/2 : α) + s.yc i j * (1/2 : α) * cosf (jacTheta alphaRow)

/-- `yp = yc*yCoef*sin(Theta)` of `getGrid`. -/
def getGrid_yp (s : Eqs α) (cosf sinf : α → α) (alphaRow : ℕ → α) : ℕ → ℕ → α :=
  fun i j => s.yc i j * (1/2 : α) * sinf (jacTheta alphaRow)

/-- `hx = abs(xp[0,0] - xp[1,0])`. -/
def caseHx (s : Eqs α) (cosf sinf : α → α) (alpha : ℕ → ℕ → α) (icase : ℕ) : α :=
  |getGrid_xp s cosf sinf (fun c => alpha icase c) 0 0
    - getGrid_xp s cosf sinf (fun c => alpha icase c) 1 0|

/-- `hy = abs(yp[0,0] - yp[0,1])`. -/
def caseHy (s : Eqs α) (cosf sinf : α → α) (alpha : ℕ → ℕ → α) (icase : ℕ) : α :=
  |getGrid_yp s cosf sinf (fun c => alpha icase c) 0 0
    - getGrid_yp s cosf sinf (fun c => alpha icase c) 0 1|

/-- The pseudo-time step `dt = 0.5*min(hx,hy)**2` of the stream-function
relaxation. -/
def caseDt (s : Eqs α) (cosf sinf : α → α) (alpha : ℕ → ℕ → α) (icase : ℕ) : α :=
  (1/2 : α) * (min (caseHx s cosf sinf alpha icase) (caseHy s cosf sinf alpha icase)) ^ 2

/-- One relaxation increment
`dpsi = (psi_xc2*(J11²+J21²) + psi_yc2*(J12²+J22²) + psi_xcyc*(2J11J12+2J21J22) - omegai) * Interior`. -/
def streamDpsi (s : Eqs α) (cosf sinf : α → α) (alpha lamda : ℕ → ℕ → α)
    (icase : ℕ) (psi : ℕ → ℕ → α) : ℕ → ℕ → α := fun i j =>
  (d_dxc2 s psi i j
      * ((caseJac cosf sinf alpha icase).1 ^ 2 + (caseJac cosf sinf alpha icase).2.2.1 ^ 2)
    + d_dyc2 s psi i j
      * ((caseJac cosf sinf alpha icase).2.1 ^ 2 + (caseJac cosf sinf alpha icase).2.2.2 ^ 2)
    + d_dxcyc s psi i j
      * (2 * (caseJac cosf sinf alpha icase).1 * (caseJac cosf sinf alpha icase).2.1
          + 2 * (caseJac cosf sinf alpha icase).2.2.1 * (caseJac cosf sinf alpha icase).2.2.2)
    - predOmega s cosf sinf alpha lamda icase i j)
    * interiorMask s.Nx s.Ny i j

/-- `np.abs(dpsi).max()` over the grid (all entries are taken in absolute
value, so the zero initial accumulator is neutral). -/
def gridMaxAbs (Nx Ny : ℕ) (f : ℕ → ℕ → α) : α :=
  (List.range Nx).foldr
    (fun i acc => max ((List.range Ny).foldr (fun j acc2 => max |f i j| acc2) 0) acc) 0

/-- The relaxation stopping tolerance `1E-8`. -/
def streamTol (α : Type) [LinearOrderedField α] : α := 1 / 100000000

/-- The relaxation iteration budget `int(1E8)`. -/
def streamBudget : ℕ := 100000000

/-- One body iteration `psii = psii + dpsi*dt`. -/
def streamStep (s : Eqs α) (cosf sinf : α → α) (alpha lamda : ℕ → ℕ → α)
    (icase : ℕ) (psi : ℕ → ℕ → α) : ℕ → ℕ → α := fun i j =>
  psi i j + streamDpsi s cosf sinf alpha lamda icase psi i j
    * caseDt s cosf sinf alpha icase

/-- The relaxation loop of `GetPredFields`: update, then break as soon as
the maximal update magnitude drops below the tolerance; when the fuel runs
out, the last iterate is returned with no error. -/
def streamLoop [DecidableRel ((· < ·) : α → α → Prop)] (s : Eqs α)
    (cosf sinf : α → α) (alpha lamda : ℕ → ℕ → α) (icase : ℕ)
    (fuel : ℕ) (psi : ℕ → ℕ → α) : ℕ → ℕ → α :=
  match fuel with
  | 0 => psi
  | fuel + 1 =>
    if gridMaxAbs s.Nx s.Ny (streamDpsi s cosf sinf alpha lamda icase psi)
        < streamTol α then
      streamStep s cosf sinf alpha lamda icase psi
    else
      streamLoop s cosf sinf alpha lamda icase fuel
        (streamStep s cosf sinf alpha lamda icase psi)

/-- The stream function computed by `GetPredFields` for one case, starting
from `psii = 0*omegai`. -/
def streamPsi [DecidableRel ((· < ·) : α → α → Prop)] (s : Eqs α)
    (cosf sinf : α → α) (alpha lamda : ℕ → ℕ → α) (icase : ℕ) : ℕ → ℕ → α :=
  streamLoop s cosf sinf alpha lamda icase streamBudget (fun _ _ => 0)

/-- The `n`-th unguarded iterate of the relaxation body from the zero
start. -/
def streamSeq (s : Eqs α) (cosf sinf : α → α) (alpha lamda : ℕ → ℕ → α)
    (icase : ℕ) (n : ℕ) : ℕ → ℕ → α :=
  (streamStep s cosf sinf alpha lamda icase)^[n] (fun _ _ => 0)

/-- Unfolding of `streamLoop` at zero fuel. -/
lemma streamLoop_zero [DecidableRel ((· < ·) : α → α → Prop)] (s : Eqs α)
    (cosf sinf : α → α) (alpha lamda : ℕ → ℕ → α) (icase : ℕ)
    (psi : ℕ → ℕ → α) :
    streamLoop s cosf sinf alpha lamda icase 0 psi = psi := rfl

/-- Unfolding of `streamLoop` at positive fuel. -/
lemma streamLoop_succ [DecidableRel ((· < ·) : α → α → Prop)] (s : Eqs α)
    (cosf sinf : α → α) (alpha lamda : ℕ → ℕ → α) (icase : ℕ)
    (fuel : ℕ) (psi : ℕ → ℕ → α) :
    streamLoop s cosf sinf alpha lamda icase (fuel + 1) psi
      = if gridMaxAbs s.Nx s.Ny (streamDpsi s cosf sinf alpha lamda icase psi)
            < streamTol α then
          streamStep s cosf sinf alpha lamda icase psi
        else
          streamLoop s cosf sinf alpha lamda icase fuel
            (streamStep s cosf sinf alpha lamda icase psi) := rfl

/-- If the tolerance is never met within the fuel, the loop returns the
last unguarded iterate. -/
lemma streamLoop_no_stop [DecidableRel ((· < ·) : α → α → Prop)] (s : Eqs α)
    (cosf sinf : α → α) (alpha lamda : ℕ → ℕ → α) (icase : ℕ) :
    ∀ (fuel : ℕ) (psi : ℕ → ℕ → α),
      (∀ m, m < fuel → streamTol α ≤ gridMaxAbs s.Nx s.Ny
        (streamDpsi s cosf sinf alpha lamda icase
          ((streamStep s cosf sinf alpha lamda icase)^[m] psi))) →
      streamLoop s cosf sinf alpha lamda icase fuel psi
        = (streamStep s cosf sinf alpha lamda icase)^[fuel] psi := by
  intro fuel
  induction fuel with
  | zero => intro psi _; rfl
  | succ fuel ih =>
    intro psi h
    rw [streamLoop_succ]
    have h0 := h 0 (Nat.succ_pos fuel)
    rw [if_neg (not_lt.mpr (by simpa using h0))]
    rw [ih (streamStep s cosf sinf alpha lamda icase psi) (fun m hm => by
      simpa [Function.iterate_succ_apply] using h (m+1) (Nat.succ_lt_succ hm))]
    rw [← Function.iterate_succ_apply]

/-- If the tolerance is first met at iterate `k < fuel`, the loop returns
the `(k+1)`-st unguarded iterate (the final small update is applied before
the break). -/
lemma streamLoop_stop [DecidableRel ((· < ·) : α → α → Prop)] (s : Eqs α)
    (cosf sinf : α → α) (alpha lamda : ℕ → ℕ → α) (icase : ℕ) :
    ∀ (k fuel : ℕ) (psi : ℕ → ℕ → α), k < fuel →
      (∀ m, m < k → streamTol α ≤ gridMaxAbs s.Nx s.Ny
        (streamDpsi s cosf sinf alpha lamda icase
          ((streamStep s cosf sinf alpha lamda icase)^[m] psi))) →
      gridMaxAbs s.Nx s.Ny (streamDpsi s cosf sinf alpha lamda icase
        ((streamStep s cosf sinf alpha lamda icase)^[k] psi)) < streamTol α →
      streamLoop s cosf sinf alpha lamda icase fuel psi
        = (streamStep s cosf sinf alpha lamda icase)^[k+1] psi := by
  intro k
  induction k with
  | zero =>
    intro fuel psi hk _ hstop
    cases fuel with
    | zero => omega
    | succ f =>
      rw [streamLoop_succ, if_pos (by simpa using hstop)]
      rfl
  | succ k ih =>
    intro fuel psi hk hmono hstop
    cases fuel with
    | zero => omega
    | succ f =>
      rw [streamLoop_succ]
      have h0 := hmono 0 (Nat.succ_pos k)
      rw [if_neg (not_lt.mpr (by simpa using h0))]
      rw [ih f (streamStep s cosf sinf alpha lamda icase psi) (by omega)
        (fun m hm => by
          simpa [Function.iterate_succ_apply] using hmono (m+1) (Nat.succ_lt_succ hm))
        (by simpa [Function.iterate_succ_apply] using hstop)]
      rw [← Function.iterate_succ_apply]

/-- Claim C7: the stream-function computation iterates
`psi <- psi + dt*(Laplacian-like operator(psi) - omega)` with the update
zeroed outside the interior, time step `dt = 0.5*min(hx,hy)^2`, stops as
soon as the maximum pointwise update magnitude drops below `1e-8`
(returning the iterate that includes that final update), and if the budget
of `1e8` steps is exhausted it silently returns the last iterate — the
return type carries no error. -/
theorem claim_C7 [DecidableRel ((· < ·) : α → α → Prop)] (s : Eqs α)
    (cosf sinf : α → α) (alpha lamda : ℕ → ℕ → α) (icase : ℕ) :
    caseDt s cosf sinf alpha icase
      = (1/2 : α) * (min (caseHx s cosf sinf alpha icase)
          (caseHy s cosf sinf alpha icase)) ^ 2
    ∧ (∀ psi i j, interiorMask s.Nx s.Ny i j = (0:α) →
        streamDpsi s cosf sinf alpha lamda icase psi i j = 0)
    ∧ (∀ psi i j, streamStep s cosf sinf alpha lamda icase psi i j
        = psi i j + streamDpsi s cosf sinf alpha lamda icase psi i j
            * caseDt s cosf sinf alpha icase)
    ∧ (∀ k, k < streamBudget →
        (∀ m, m < k → streamTol α ≤ gridMaxAbs s.Nx s.Ny
          (streamDpsi s cosf sinf alpha lamda icase
            (streamSeq s cosf sinf alpha lamda icase m))) →
        gridMaxAbs s.Nx s.Ny (streamDpsi s cosf sinf alpha lamda icase
          (streamSeq s cosf sinf alpha lamda icase k)) < streamTol α →
        streamPsi s cosf sinf alpha lamda icase
          = streamSeq s cosf sinf alpha lamda icase (k+1))
    ∧ ((∀ m, m < streamBudget → streamTol α ≤ gridMaxAbs s.Nx s.Ny
          (streamDpsi s cosf sinf alpha lamda icase
            (streamSeq s cosf sinf alpha lamda icase m))) →
        streamPsi s cosf sinf alpha lamda icase
          = streamSeq s cosf sinf alpha lamda icase streamBudget) := by
  refine ⟨rfl, ?_, fun _ _ _ => rfl, ?_, ?_⟩
  · intro psi i j h
    unfold streamDpsi
    rw [h, mul_zero]
  · intro k hk hmono hstop
    exact streamLoop_stop s cosf sinf alpha lamda icase k streamBudget
      (fun _ _ => 0) hk hmono hstop
  · intro hmono
    exact streamLoop_no_stop s cosf sinf alpha lamda icase streamBudget
      (fun _ _ => 0) hmono

/-- Claim C7 (witness): on the trivial 1×1-grid state (no interior points)
the increment vanishes, so the loop stops at the very first check and
returns the first iterate. -/
theorem claim_C7_witness :
    0 < streamBudget
    ∧ gridMaxAbs trivSt.Nx trivSt.Ny
        (streamDpsi trivSt id id (fun _ _ => 0) (fun _ _ => 0) 0
          (streamSeq trivSt id id (fun _ _ => 0) (fun _ _ => 0) 0 0)) < streamTol ℚ
    ∧ streamPsi trivSt id id (fun _ _ => 0) (fun _ _ => 0) 0
        = streamSeq trivSt id id (fun _ _ => 0) (fun _ _ => 0) 0 1 := by
  have hb : 0 < streamBudget := by norm_num [streamBudget]
  have hlt : gridMaxAbs trivSt.Nx trivSt.Ny
      (streamDpsi trivSt id id (fun _ _ => 0) (fun _ _ => 0) 0
        (streamSeq trivSt id id (fun _ _ => 0) (fun _ _ => 0) 0 0)) < streamTol ℚ := by
    norm_num [gridMaxAbs, trivSt, streamDpsi, streamSeq, interiorMask, streamTol,
      List.range_succ]
  exact ⟨hb, hlt,
    (claim_C7 trivSt id id (fun _ _ => 0) (fun _ _ => 0) 0).2.2.2.1 0 hb
      (fun m hm => absurd hm (Nat.not_lt_zero m)) hlt⟩

/-- Claim C10: the grids returned by `Mode2Field` vanish on every boundary
point (first/last row or column), and consequently in the fields assembled
by `GetPredFields` pressure and y-velocity are exactly zero on the boundary
while x-velocity there equals the re-added boundary profile `uBC`. -/
theorem claim_C10 (s : Eqs α) (Vec : ℕ → α) (lamda : ℕ → ℕ → α)
    (icase i j : ℕ)
    (hb : i = 0 ∨ i + 1 = s.Nx ∨ j = 0 ∨ j + 1 = s.Ny) :
    mode2Field_p s.Nx s.Ny Vec i j = 0
    ∧ mode2Field_u s.Nx s.Ny Vec i j = 0
    ∧ mode2Field_v s.Nx s.Ny Vec i j = 0
    ∧ pred_p s lamda icase i j = 0
    ∧ pred_v s lamda icase i j = 0
    ∧ pred_u s lamda icase i j = s.uBC i j := by
  have hcond : ¬(0 < i ∧ i + 1 < s.Nx ∧ 0 < j ∧ j + 1 < s.Ny) := by
    rcases hb with h | h | h | h <;> omega
  refine ⟨?_, ?_, ?_, ?_, ?_, ?_⟩ <;>
    simp [mode2Field_p, mode2Field_u, mode2Field_v, pred_p, pred_u, pred_v,
      hcond]

/-- Claim C10 (witness): the boundary-zero facts instantiated at the corner
point of the trivial state's grid. -/
theorem claim_C10_witness :
    ((0:ℕ) = 0 ∨ (0:ℕ) + 1 = trivSt.Nx ∨ (0:ℕ) = 0 ∨ (0:ℕ) + 1 = trivSt.Ny)
    ∧ (mode2Field_p trivSt.Nx trivSt.Ny (fun _ => (1:ℚ)) 0 0 = 0
      ∧ mode2Field_u trivSt.Nx trivSt.Ny (fun _ => (1:ℚ)) 0 0 = 0
      ∧ mode2Field_v trivSt.Nx trivSt.Ny (fun _ => (1:ℚ)) 0 0 = 0
      ∧ pred_p trivSt (fun _ _ => 1) 0 0 0 = 0
      ∧ pred_v trivSt (fun _ _ => 1) 0 0 0 = 0
      ∧ pred_u trivSt (fun _ _ => 1) 0 0 0 = trivSt.uBC 0 0) :=
  ⟨Or.inl rfl,
    claim_C10 trivSt (fun _ => 1) (fun _ _ => 1) 0 0 0 (Or.inl rfl)⟩
